import Mathlib

/-!
Verification of the RLG-Projects scheduling/compliance engine specification
against the repository's code.

The concrete browser code (`CulturalManager`, `NetworkHandler`) is embedded
directly from the source.  The scheduling engine itself (Calendar Resolver,
Availability Calculator, Overlap Aggregator, Compliance Evaluator, Slot
Optimizer) has no implementation in the repository's source tree — only
configuration data and the specification describe it — so those components
are modelled from the specification's words, as noted on each definition.

Conventions: local civil time is measured in minutes from local midnight
(one day = 1440 minutes); absolute instants are integers (minutes, UTC);
days are indexed by natural numbers and a day's weekday is its index mod 7;
overlap durations for urgency classification are in the unit the thresholds
are configured in (seconds for the spec's default 1h/2h boundaries).
-/

namespace RLG

/- ### Overlap urgency classification (spec §3 OverlapWindow, §4.3) -/

inductive Urgency
  | red
  | amber
  | green
deriving DecidableEq, Repr

/-- Configurable classification thresholds (spec: thresholds are configuration,
not hard-coded constants, and must be overridable per request). -/
structure UrgencyThresholds where
  redBelow : Nat
  amberUpTo : Nat
deriving DecidableEq, Repr

/-- Default thresholds in seconds: red below 1 hour, amber up to 2 hours. -/
def defaultThresholds : UrgencyThresholds := ⟨3600, 7200⟩

/-- Modelled from the spec: urgency is `red` if the overlap duration is below
the first threshold, `amber` if it is between the thresholds (inclusive),
`green` if it is strictly above the second threshold (spec §3: red if < 1h,
amber if 1–2h, green if > 2h). -/
def classifyUrgency (t : UrgencyThresholds) (d : Nat) : Urgency :=
  if d < t.redBelow then .red
  else if d ≤ t.amberUpTo then .amber
  else .green

/- ### Work-pattern profiles and availability (spec §3, §4.2) -/

inductive SchedError
  | unknownJurisdiction
  | invalidProfile
  | insufficientQuorum
  | ruleEvalTimeout
deriving DecidableEq, Repr

inductive HolidayKind
  | pub
  | religious
  | observance
  | movable
deriving DecidableEq, Repr

/-- A base working window of a profile: (weekday, start, end) in local civil
minutes of the day. -/
structure LocalWindow where
  weekday : Nat
  startM : Nat
  endM : Nat
deriving DecidableEq, Repr

/-- Modelled from the spec: an adjustment rule is a temporal predicate on the
day together with a window delta; the spec's example delta is a length
scaling ("during Ramadan: multiply window length by 0.7"), represented as a
rational factor num/den applied to the window length. -/
structure AdjustmentRule where
  appliesOn : Nat → Bool
  num : Nat
  den : Nat

structure WorkPatternProfile where
  pid : String
  jurisdiction : String
  tzOffset : Int
  windows : List LocalWindow
  adjustments : List AdjustmentRule

/-- A resolved holiday calendar: concrete day indices with their kind. -/
abbrev HolidayCalendar := List (Nat × HolidayKind)

/-- Modelled from the spec: a day is removed entirely when a holiday of kind
`public` or `religious` covers it (spec §4.2). -/
def isBlockedHoliday (cal : HolidayCalendar) (d : Nat) : Bool :=
  cal.any (fun e => e.1 == d && (e.2 == HolidayKind.pub || e.2 == HolidayKind.religious))

/-- Two base windows overlap when they are on the same weekday and their
half-open minute intervals intersect. -/
def windowsOverlap (w1 w2 : LocalWindow) : Bool :=
  w1.weekday == w2.weekday && w1.startM < w2.endM && w2.startM < w1.endM

/-- Pairwise scan for an overlapping pair of base windows. -/
def anyPairOverlap : List LocalWindow → Bool
  | [] => false
  | w :: ws => ws.any (windowsOverlap w) || anyPairOverlap ws

/-- Modelled from the spec: a profile's base windows are malformed when some
window has start ≥ end or two windows within the same day overlap (§4.2). -/
def profileMalformed (p : WorkPatternProfile) : Bool :=
  p.windows.any (fun w => w.endM ≤ w.startM) || anyPairOverlap p.windows

/-- Apply the adjustment rules whose predicate matches the day; the end of the
window is rescaled from the start and clamped to the end of the local day. -/
def applyAdjustments (adjs : List AdjustmentRule) (d : Nat) (w : LocalWindow) : LocalWindow :=
  adjs.foldl
    (fun acc a =>
      if a.appliesOn d then
        { acc with endM := min (acc.startM + (acc.endM - acc.startM) * a.num / a.den) 1440 }
      else acc)
    w

/-- A concrete availability interval in absolute (UTC) minutes. -/
structure AvailabilityWindow where
  startI : Int
  endI : Int
deriving DecidableEq, Repr

/-- Modelled from the spec (§4.2): the availability windows contributed by a
single day — empty when the day is a blocked holiday, otherwise the base
windows of the day's weekday, adjusted and converted to absolute instants
through the profile's timezone offset; zero-length results are omitted. -/
def dayWindows (p : WorkPatternProfile) (cal : HolidayCalendar) (d : Nat) :
    List AvailabilityWindow :=
  if isBlockedHoliday cal d then []
  else
    (p.windows.filter (fun w => w.weekday == d % 7)).filterMap (fun w =>
      let w2 := applyAdjustments p.adjustments d w
      if w2.startM < w2.endM then
        some ⟨(d : Int) * 1440 + w2.startM + p.tzOffset, (d : Int) * 1440 + w2.endM + p.tzOffset⟩
      else none)

/-- Modelled from the spec (§4.2): `computeAvailability` fails with
`InvalidProfile` on malformed base windows and otherwise returns the ordered
concatenation of each day's windows over the requested range. -/
def computeAvailability (p : WorkPatternProfile) (range : List Nat) (cal : HolidayCalendar) :
    Except SchedError (List AvailabilityWindow) :=
  if profileMalformed p then .error .invalidProfile
  else .ok ((range.map (dayWindows p cal)).flatten)

/- ### Calendar Resolver (spec §4.1, §3 HolidayCalendar, §9) -/

/-- Modelled from the spec (§3, §9): a calendar entry is either a fixed date,
an "nth weekday of month" rule, or an offset from a lunar anchor; movable
entries carry a resolution rule rather than a fixed date. -/
inductive HolidayRule
  | fixedDate (month day : Nat)
  | nthWeekdayRule (month weekday n : Nat)
  | lunarOffset (anchor : String) (offsetDays : Int)
deriving DecidableEq, Repr

def isLeap (y : Nat) : Bool :=
  (y % 4 == 0 && y % 100 != 0) || y % 400 == 0

def daysInMonth (y m : Nat) : Nat :=
  if m == 2 then (if isLeap y then 29 else 28)
  else if m == 4 || m == 6 || m == 9 || m == 11 then 30
  else 31

/-- Day of the year (1-based) of a (month, day) pair in year `y`. -/
def dayOfYear (y m d : Nat) : Nat :=
  (List.range (m - 1)).foldl (fun acc i => acc + daysInMonth y (i + 1)) 0 + d

/-- Weekday of a Gregorian date by Zeller's congruence (0 = Saturday). -/
def weekdayOf (y m d : Nat) : Nat :=
  let m2 := if m < 3 then m + 12 else m
  let y2 := if m < 3 then y - 1 else y
  (d + 13 * (m2 + 1) / 5 + y2 % 100 + y2 % 100 / 4 + y2 / 100 / 4 + 5 * (y2 / 100)) % 7

/-- Day of the month of the nth occurrence of `wd` in month `m` of year `y`. -/
def nthWeekdayDay (y m wd n : Nat) : Nat :=
  let first := (((List.range 7).find? (fun i => weekdayOf y m (i + 1) == wd)).getD 0) + 1
  first + 7 * (n - 1)

/-- Modelled from the spec (§3, §9): resolving a rule entry to a concrete day
of the year is a pure function of the rule, the year and the lunar-anchor
table; movable/lunar entries resolve through the anchor's day of the year. -/
def resolveRule (lunar : String → Nat → Nat) (y : Nat) : HolidayRule → Nat
  | .fixedDate m d => dayOfYear y m d
  | .nthWeekdayRule m wd n => dayOfYear y m (nthWeekdayDay y m wd n)
  | .lunarOffset a off => ((lunar a y : Int) + off).toNat

/-- Reference data of the resolver: the rule calendar of each known
jurisdiction and the lunar anchor table. -/
structure CalendarDB where
  calendars : String → Option (List (HolidayRule × HolidayKind))
  lunar : String → Nat → Nat

/-- Modelled from the spec (§4.1): resolve a jurisdiction's calendar for a
year to an ordered set of concrete holiday days with kind; an unknown
jurisdiction fails with `UnknownJurisdiction`. -/
def resolveCalendar (db : CalendarDB) (j : String) (y : Nat) :
    Except SchedError (List (Nat × HolidayKind)) :=
  match db.calendars j with
  | none => .error .unknownJurisdiction
  | some entries => .ok (entries.map (fun e => (resolveRule db.lunar y e.1, e.2)))

/-- Resolver cache keyed by (jurisdiction, year) (spec §5). -/
abbrev ResolverCache := List ((String × Nat) × List (Nat × HolidayKind))

/-- A cache is coherent when every entry stores exactly the pure resolution of
its key. -/
def cacheCoherent (db : CalendarDB) (c : ResolverCache) : Prop :=
  ∀ k v, (k, v) ∈ c → resolveCalendar db k.1 k.2 = .ok v

def lookupCache (c : ResolverCache) (j : String) (y : Nat) :
    Option (List (Nat × HolidayKind)) :=
  (c.find? (fun e => e.1.1 == j && e.1.2 == y)).map (fun e => e.2)

/-- Modelled from the spec (§5): the caching resolver serves a hit from the
cache and otherwise resolves purely and stores the result. -/
def resolveCached (db : CalendarDB) (c : ResolverCache) (j : String) (y : Nat) :
    Except SchedError (List (Nat × HolidayKind)) × ResolverCache :=
  match lookupCache c j y with
  | some v => (.ok v, c)
  | none =>
    match resolveCalendar db j y with
    | .ok v => (.ok v, ((j, y), v) :: c)
    | .error e => (.error e, c)

/- ### Compliance Evaluator (spec §3, §4.4) -/

inductive CStatus
  | pass
  | violation
  | warning
deriving DecidableEq, Repr

/-- Modelled from the spec (§3 ComplianceRule): rule kinds include maximum
cumulative work minutes per period, minimum rest between sessions,
religious/sabbath blackout, and mandated work-week boundaries; kinds arriving
from the external legal-rule feed that the evaluator does not recognise are
carried as a tagged `unknownKind`. -/
inductive RuleKind
  | maxWeeklyMinutes (limit : Nat)
  | minRestMinutes (gap : Nat)
  | religiousBlackout (blockStart blockEnd : Int)
  | workWeekBoundary (earliest latest : Int)
  | unknownKind (tag : String)
deriving DecidableEq, Repr

structure ComplianceRule where
  jurisdiction : String
  kind : RuleKind
  mandatory : Bool
  remediation : String
deriving DecidableEq, Repr

/-- A proposed schedule: the candidate's window plus the cumulative schedule
history for the affected participants, supplied by the caller (spec §4.4). -/
structure ProposedSchedule where
  winStart : Int
  winEnd : Int
  history : List (Int × Int)
deriving DecidableEq, Repr

def sumDurations (hist : List (Int × Int)) : Int :=
  hist.foldl (fun acc h => acc + (h.2 - h.1)) 0

/-- Modelled from the spec (§4.4): the evaluator's dispatch table — the
side-effect-free predicate of each rule kind it knows, `none` for a kind it
cannot evaluate. -/
def rulePredicate : RuleKind → Option (ProposedSchedule → Bool)
  | .maxWeeklyMinutes limit =>
      some (fun s => (s.winEnd - s.winStart) + sumDurations s.history ≤ (limit : Int))
  | .minRestMinutes gap =>
      some (fun s => s.history.all (fun h => h.2 + gap ≤ s.winStart || s.winEnd + gap ≤ h.1))
  | .religiousBlackout bs be =>
      some (fun s => s.winEnd ≤ bs || be ≤ s.winStart)
  | .workWeekBoundary earliest latest =>
      some (fun s => earliest ≤ s.winStart && s.winEnd ≤ latest)
  | .unknownKind _ => none

structure ComplianceResult where
  rule : ComplianceRule
  status : CStatus
  explanation : String
deriving DecidableEq, Repr

def unknownRuleExplanation : String :=
  "UnknownComplianceRule: the rule kind could not be evaluated; failing closed"

/-- Modelled from the spec (§4.4): evaluate one rule against a proposed
schedule; a kind without an evaluator fails closed as a violation. -/
def evalRule (r : ComplianceRule) (s : ProposedSchedule) : ComplianceResult :=
  match rulePredicate r.kind with
  | some p => if p s then ⟨r, .pass, "ok"⟩ else ⟨r, .violation, r.remediation⟩
  | none => ⟨r, .violation, unknownRuleExplanation⟩

/-- Modelled from the spec (§4.4): independent evaluation of every applicable
rule, one ComplianceResult per rule. -/
def evaluate (rules : List ComplianceRule) (s : ProposedSchedule) : List ComplianceResult :=
  rules.map (fun r => evalRule r s)

/- ### Overlap aggregation and the Slot Optimizer (spec §4.3, §4.6) -/

structure OverlapWindow where
  startI : Int
  endI : Int
  participants : List String
  urgency : Urgency
deriving DecidableEq, Repr

structure ScheduleCandidate where
  window : OverlapWindow
  results : List ComplianceResult
  score : Int
deriving DecidableEq, Repr

/-- A near-miss: a dropped candidate together with the specific compliance
results that block it (spec §4.6, glossary). -/
structure NearMiss where
  candidate : ScheduleCandidate
  blockingReasons : List ComplianceResult
deriving DecidableEq, Repr

inductive OptimizerResult
  | done (ranked : List ScheduleCandidate)
  | infeasible (nearMisses : List NearMiss)
  | failed (err : SchedError)
deriving DecidableEq, Repr

/-- Pairwise intersection of two ordered sets of availability windows. -/
def intersectTwo (xs ys : List AvailabilityWindow) : List AvailabilityWindow :=
  (xs.map (fun x => ys.filterMap (fun y =>
    if max x.startI y.startI < min x.endI y.endI then
      some ⟨max x.startI y.startI, min x.endI y.endI⟩
    else none))).flatten

/-- Modelled from the spec (§4.3): the windows during which every participant
is available, as the intersection of all per-participant window sets (the
request's quorum is the full participant set). -/
def intersectAllW : List (List AvailabilityWindow) → List AvailabilityWindow
  | [] => []
  | [x] => x
  | x :: y :: rest => intersectTwo x (intersectAllW (y :: rest))

/-- A scheduling request (spec §6): inline participant profiles, target date
range, per-jurisdiction calendars, the applicable compliance rules, the
cumulative schedule history, the minimum common-window duration and the
overridable urgency thresholds (in minutes). -/
structure SchedulingRequest where
  profiles : List WorkPatternProfile
  range : List Nat
  calendars : String → HolidayCalendar
  rules : List ComplianceRule
  history : List (Int × Int)
  minWindow : Int
  thresholds : UrgencyThresholds

def hasMandatoryViolation (rs : List ComplianceResult) : Bool :=
  rs.any (fun cr => cr.rule.mandatory && cr.status == CStatus.violation)

/-- Build a candidate from a common window: classify it, evaluate compliance
and score it by duration. -/
def mkCandidate (req : SchedulingRequest) (w : AvailabilityWindow) : ScheduleCandidate :=
  { window := ⟨w.startI, w.endI, req.profiles.map (fun p => p.pid),
               classifyUrgency req.thresholds (w.endI - w.startI).toNat⟩
    results := evaluate req.rules ⟨w.startI, w.endI, req.history⟩
    score := w.endI - w.startI }

/-- Candidates that pass every mandatory rule (spec §4.6 Filtering). -/
def filterCompliant (cands : List ScheduleCandidate) : List ScheduleCandidate :=
  cands.filter (fun c => !hasMandatoryViolation c.results)

/-- Turn a dropped candidate into a near-miss carrying its specific blocking
violations. -/
def toNearMiss (c : ScheduleCandidate) : NearMiss :=
  ⟨c, c.results.filter (fun cr => cr.rule.mandatory && cr.status == CStatus.violation)⟩

/-- Insert a candidate in front of the first strictly lower-scored one. -/
def insertRanked (c : ScheduleCandidate) : List ScheduleCandidate → List ScheduleCandidate
  | [] => [c]
  | d :: ds => if d.score ≤ c.score then c :: d :: ds else d :: insertRanked c ds

/-- Rank candidates by descending fairness-adjusted score (spec §4.6 Ranking). -/
def rank : List ScheduleCandidate → List ScheduleCandidate
  | [] => []
  | c :: cs => insertRanked c (rank cs)

/-- Modelled from the spec (§4.6): the Filtering / Ranking / terminal states —
drop candidates violating a mandatory rule; rank the survivors into `Done`,
or return every dropped candidate as an explained near-miss in `Infeasible`. -/
def finishRun (cands : List ScheduleCandidate) : OptimizerResult :=
  if (filterCompliant cands).isEmpty then .infeasible (cands.map toNearMiss)
  else .done (rank (filterCompliant cands))

/-- Modelled from the spec (§4.6): the optimizer pipeline — collect per
participant availability (any component failure goes straight to `Failed`),
aggregate common windows, fail with `InsufficientQuorum` when no common
window of the minimum duration exists, then filter and rank. -/
def commonWindows (req : SchedulingRequest) (avs : List (List AvailabilityWindow)) :
    List AvailabilityWindow :=
  (intersectAllW avs).filter (fun w => req.minWindow ≤ w.endI - w.startI)

def runOptimizer (req : SchedulingRequest) : OptimizerResult :=
  match req.profiles.mapM (fun p => computeAvailability p req.range (req.calendars p.jurisdiction)) with
  | .error e => .failed e
  | .ok avs =>
    if (commonWindows req avs).isEmpty then .failed .insufficientQuorum
    else finishRun ((commonWindows req avs).map (mkCandidate req))

/- ### Embeddings of the repository's concrete code (RLG global controller) -/

/-- State of `CulturalManager` relevant to holiday loading: the current region,
the loaded holiday payload and a count of errors reported to the telemetry
service. -/
structure CulturalState where
  currentRegion : String
  holidays : List String
  trackedErrors : Nat
deriving DecidableEq, Repr

/-- Embeds `CulturalManager.loadHolidayData`: one fetch of the public-holiday
feed; on success the holidays field is replaced by the response, on any error
the error is tracked and the previously stored holidays stay untouched.  The
second component counts the fetch attempts the call performs (the source has
no retry, so it is always one). -/
def loadHolidayData (fetchResult : Except String (List String)) (st : CulturalState) :
    CulturalState × Nat :=
  match fetchResult with
  | .ok hs => ({ st with holidays := hs }, 1)
  | .error _ => ({ st with trackedErrors := st.trackedErrors + 1 }, 1)

/-- Outcome of one `fetch` attempt: an ok response with its parsed body, or a
failure (network error or a response with ok = false). -/
inductive FetchOutcome
  | ok (body : String)
  | err (msg : String)
deriving DecidableEq, Repr

/-- Embeds `NetworkHandler.fetchWithRetry`: attempt the fetch; on failure
retry with `retries - 1` while retries remain, otherwise rethrow the last
error.  `attempt i` is the outcome of the i-th fetch attempt. -/
def fetchWithRetry (attempt : Nat → FetchOutcome) (i retries : Nat) : Except String String :=
  match attempt i, retries with
  | .ok body, _ => .ok body
  | .err _, r + 1 => fetchWithRetry attempt (i + 1) r
  | .err e, 0 => .error e

/-- Number of fetch attempts `fetchWithRetry` performs (same recursion). -/
def attemptsUsed (attempt : Nat → FetchOutcome) (i retries : Nat) : Nat :=
  match attempt i, retries with
  | .ok _, _ => 1
  | .err _, r + 1 => 1 + attemptsUsed attempt (i + 1) r
  | .err _, 0 => 1

/-- Embeds `CulturalManager.translate`: `translations[key] || key` — the
stored entry when it is truthy (a non-empty string), the key itself when the
entry is missing or falsy. -/
def translate (translations : String → Option String) (key : String) : String :=
  match translations key with
  | some v => if v = "" then key else v
  | none => key

/- ### Concrete fixtures used by the witness theorems -/

/-- A profile with a Monday/Tuesday/Wednesday 09:00–17:00 pattern (UTC+2) and
a halve-the-window adjustment on day 2. -/
def pEx : WorkPatternProfile :=
  { pid := "p1", jurisdiction := "ZA", tzOffset := -120
    windows := [⟨0, 540, 1020⟩, ⟨1, 540, 1020⟩, ⟨2, 540, 1020⟩]
    adjustments := [⟨fun d => d == 2, 1, 2⟩] }

/-- Day 1 of the range is a religious holiday. -/
def calEx : HolidayCalendar := [(1, HolidayKind.religious)]

/-- The availability of `pEx` over days 0–2 under `calEx`. -/
def wsEx : List AvailabilityWindow := [⟨420, 900⟩, ⟨3300, 3540⟩]

def pA : WorkPatternProfile :=
  { pid := "a", jurisdiction := "ZA", tzOffset := 0
    windows := [⟨0, 540, 1020⟩], adjustments := [] }

def pB : WorkPatternProfile :=
  { pid := "b", jurisdiction := "ZA", tzOffset := -60
    windows := [⟨0, 540, 1020⟩], adjustments := [] }

def ruleOkEx : ComplianceRule :=
  ⟨"ZA", RuleKind.maxWeeklyMinutes 3000, true, "shorten the session"⟩

def ruleTightEx : ComplianceRule :=
  ⟨"ZA", RuleKind.maxWeeklyMinutes 100, true, "shorten the session"⟩

/-- A two-participant request that reaches `Done`. -/
def reqDone : SchedulingRequest :=
  { profiles := [pA, pB], range := [0], calendars := fun _ => []
    rules := [ruleOkEx], history := [], minWindow := 15, thresholds := ⟨60, 120⟩ }

/-- The same request with a mandatory rule every candidate violates. -/
def reqInf : SchedulingRequest :=
  { reqDone with rules := [ruleTightEx] }

def ruleUnknownEx : ComplianceRule :=
  ⟨"GLOBAL", RuleKind.unknownKind "quantum-rest", true, "n/a"⟩

def schedEx : ProposedSchedule := ⟨0, 60, []⟩

/-- A jurisdiction database with fixed, nth-weekday and lunar-anchored rules. -/
def dbEx : CalendarDB :=
  { calendars := fun j =>
      if j = "ZA" then
        some [(HolidayRule.fixedDate 1 1, HolidayKind.pub),
              (HolidayRule.nthWeekdayRule 5 2 1, HolidayKind.pub),
              (HolidayRule.lunarOffset "eid-al-fitr" 1, HolidayKind.religious)]
      else none
    lunar := fun a y => if a = "eid-al-fitr" && y == 2024 then 100 else 0 }

def culturalStEx : CulturalState := ⟨"ZA", ["newyear"], 0⟩

/-- Attempts 0–2 fail, attempt 3 succeeds. -/
def attEx : Nat → FetchOutcome :=
  fun j => if j < 3 then FetchOutcome.err "boom" else FetchOutcome.ok "payload"

/-- A translations table with an empty-string entry and a normal entry. -/
def trEx : String → Option String :=
  fun k => if k = "greeting" then some "" else if k = "bye" then some "ciao" else none

/-! ## Theorems -/

/- ### C1 — urgency classification -/

/-- C1 counterexample: under the default thresholds a duration of exactly
2h00m00s (7200 s) classifies as `amber`, not `green` as the claim's boundary
list asserts — the claim's own threshold definition (green iff d > 2h) makes
the 2h boundary amber. -/
theorem classifyUrgency_twoHours_not_green :
    classifyUrgency defaultThresholds 7200 = Urgency.amber ∧
    classifyUrgency defaultThresholds 7200 ≠ Urgency.green := by
  constructor <;> decide

/-- C1 (amended): urgency is a pure function of the duration under the
configured thresholds — red iff d < t.redBelow, amber iff
t.redBelow ≤ d ≤ t.amberUpTo, green iff d > t.amberUpTo — and with the
default thresholds 59m59s is red, 1h00m00s is amber, 1h59m59s is amber and
2h00m00s is amber (2h00m01s is green). -/
theorem classifyUrgency_characterisation (t : UrgencyThresholds) (d : Nat)
    (h : t.redBelow ≤ t.amberUpTo) :
    (classifyUrgency t d = Urgency.red ↔ d < t.redBelow) ∧
    (classifyUrgency t d = Urgency.amber ↔ t.redBelow ≤ d ∧ d ≤ t.amberUpTo) ∧
    (classifyUrgency t d = Urgency.green ↔ t.amberUpTo < d) ∧
    classifyUrgency defaultThresholds 3599 = Urgency.red ∧
    classifyUrgency defaultThresholds 3600 = Urgency.amber ∧
    classifyUrgency defaultThresholds 7199 = Urgency.amber ∧
    classifyUrgency defaultThresholds 7200 = Urgency.amber ∧
    classifyUrgency defaultThresholds 7201 = Urgency.green := by
  refine ⟨?_, ?_, ?_, by decide, by decide, by decide, by decide, by decide⟩ <;>
    (unfold classifyUrgency; split_ifs with h1 h2 <;> simp_all <;> omega)

/-- Witness for C1's amended theorem at the concrete duration 5000 s. -/
theorem classifyUrgency_characterisation_w :
    (classifyUrgency defaultThresholds 5000 = Urgency.red ↔
      5000 < defaultThresholds.redBelow) ∧
    (classifyUrgency defaultThresholds 5000 = Urgency.amber ↔
      defaultThresholds.redBelow ≤ 5000 ∧ 5000 ≤ defaultThresholds.amberUpTo) ∧
    (classifyUrgency defaultThresholds 5000 = Urgency.green ↔
      defaultThresholds.amberUpTo < 5000) ∧
    classifyUrgency defaultThresholds 3599 = Urgency.red ∧
    classifyUrgency defaultThresholds 3600 = Urgency.amber ∧
    classifyUrgency defaultThresholds 7199 = Urgency.amber ∧
    classifyUrgency defaultThresholds 7200 = Urgency.amber ∧
    classifyUrgency defaultThresholds 7201 = Urgency.green :=
  classifyUrgency_characterisation defaultThresholds 5000 (by decide)

/- ### C5 — unknown compliance rule kinds fail closed -/

/-- C5: a rule whose kind has no evaluator yields a `violation` result whose
explanation says the rule could not be evaluated, and is never a `pass`. -/
theorem unknownRule_failsClosed (r : ComplianceRule) (s : ProposedSchedule) (tag : String)
    (h : r.kind = RuleKind.unknownKind tag) :
    (evalRule r s).status = CStatus.violation ∧
    (evalRule r s).explanation = unknownRuleExplanation ∧
    (evalRule r s).status ≠ CStatus.pass := by
  have hr : evalRule r s = ⟨r, CStatus.violation, unknownRuleExplanation⟩ := by
    unfold evalRule
    rw [h]
    rfl
  rw [hr]
  exact ⟨rfl, rfl, fun hx => nomatch hx⟩

/-- Witness for C5 at a concrete unknown-kind rule. -/
theorem unknownRule_failsClosed_w :
    (evalRule ruleUnknownEx schedEx).status = CStatus.violation ∧
    (evalRule ruleUnknownEx schedEx).explanation = unknownRuleExplanation ∧
    (evalRule ruleUnknownEx schedEx).status ≠ CStatus.pass :=
  unknownRule_failsClosed ruleUnknownEx schedEx "quantum-rest" rfl

/- ### C8 — calendar-fetch failure handling in the code -/

/-- C8 counterexample: with cached holiday data present, a timed-out calendar
fetch performs exactly one fetch attempt — the code never makes the second,
cached-data retry attempt the claim requires. -/
theorem loadHolidayData_no_retry :
    (loadHolidayData (Except.error "timeout") culturalStEx).2 = 1 ∧
    (loadHolidayData (Except.error "timeout") culturalStEx).2 ≠ 2 :=
  ⟨rfl, by decide⟩

/-- C8 (amended): on a failed calendar fetch, `loadHolidayData` performs
exactly one attempt, tracks the error, keeps the previously cached holidays
unchanged and does not fail the request; on success it replaces them. -/
theorem loadHolidayData_spec (st : CulturalState) (e : String) (hs : List String) :
    loadHolidayData (Except.error e) st =
      ({ st with trackedErrors := st.trackedErrors + 1 }, 1) ∧
    (loadHolidayData (Except.error e) st).1.holidays = st.holidays ∧
    loadHolidayData (Except.ok hs) st = ({ st with holidays := hs }, 1) :=
  ⟨rfl, rfl, rfl⟩

/- ### C9 — fetchWithRetry attempt bound and outcome -/

theorem fetchWithRetry_ok (attempt : Nat → FetchOutcome) (i r : Nat) (body : String)
    (h : attempt i = FetchOutcome.ok body) :
    fetchWithRetry attempt i r = Except.ok body := by
  unfold fetchWithRetry
  rw [h]

theorem fetchWithRetry_err_step (attempt : Nat → FetchOutcome) (i r : Nat) (e : String)
    (h : attempt i = FetchOutcome.err e) :
    fetchWithRetry attempt i (r + 1) = fetchWithRetry attempt (i + 1) r := by
  conv_lhs => unfold fetchWithRetry
  rw [h]

theorem fetchWithRetry_err_zero (attempt : Nat → FetchOutcome) (i : Nat) (e : String)
    (h : attempt i = FetchOutcome.err e) :
    fetchWithRetry attempt i 0 = Except.error e := by
  unfold fetchWithRetry
  rw [h]

theorem attemptsUsed_le (attempt : Nat → FetchOutcome) :
    ∀ (r i : Nat), attemptsUsed attempt i r ≤ r + 1 := by
  intro r
  induction r with
  | zero =>
      intro i
      unfold attemptsUsed
      cases h : attempt i <;> simp
  | succ n ih =>
      intro i
      unfold attemptsUsed
      cases h : attempt i
      · simp
      · have := ih (i + 1)
        simp only []
        omega

/-- C9: with the default retries = 3, `fetchWithRetry` performs at most 4
fetch attempts; it returns the parsed body of the first ok attempt; and when
all 4 attempts fail it throws the final attempt's error. -/
theorem fetchWithRetry_spec (attempt : Nat → FetchOutcome) :
    attemptsUsed attempt 0 3 ≤ 4 ∧
    (∀ body k, k ≤ 3 → (∀ j, j < k → ∃ e, attempt j = FetchOutcome.err e) →
      attempt k = FetchOutcome.ok body → fetchWithRetry attempt 0 3 = Except.ok body) ∧
    (∀ e0 e1 e2 e3,
      attempt 0 = FetchOutcome.err e0 → attempt 1 = FetchOutcome.err e1 →
      attempt 2 = FetchOutcome.err e2 → attempt 3 = FetchOutcome.err e3 →
      fetchWithRetry attempt 0 3 = Except.error e3) := by
  refine ⟨attemptsUsed_le attempt 3 0, ?_, ?_⟩
  · intro body k hk hprev hok
    interval_cases k
    · exact fetchWithRetry_ok attempt 0 3 body hok
    · obtain ⟨e0, h0⟩ := hprev 0 (by omega)
      rw [fetchWithRetry_err_step attempt 0 2 e0 h0]
      exact fetchWithRetry_ok attempt 1 2 body hok
    · obtain ⟨e0, h0⟩ := hprev 0 (by omega)
      obtain ⟨e1, h1⟩ := hprev 1 (by omega)
      rw [fetchWithRetry_err_step attempt 0 2 e0 h0,
        fetchWithRetry_err_step attempt 1 1 e1 h1]
      exact fetchWithRetry_ok attempt 2 1 body hok
    · obtain ⟨e0, h0⟩ := hprev 0 (by omega)
      obtain ⟨e1, h1⟩ := hprev 1 (by omega)
      obtain ⟨e2, h2⟩ := hprev 2 (by omega)
      rw [fetchWithRetry_err_step attempt 0 2 e0 h0,
        fetchWithRetry_err_step attempt 1 1 e1 h1,
        fetchWithRetry_err_step attempt 2 0 e2 h2]
      exact fetchWithRetry_ok attempt 3 0 body hok
  · intro e0 e1 e2 e3 h0 h1 h2 h3
    rw [fetchWithRetry_err_step attempt 0 2 e0 h0,
      fetchWithRetry_err_step attempt 1 1 e1 h1,
      fetchWithRetry_err_step attempt 2 0 e2 h2]
    exact fetchWithRetry_err_zero attempt 3 e3 h3

/-- Witness for C9: three failures then a success — the call succeeds with
the fourth attempt's body within the 4-attempt bound. -/
theorem fetchWithRetry_spec_w :
    attemptsUsed attEx 0 3 ≤ 4 ∧ fetchWithRetry attEx 0 3 = Except.ok "payload" :=
  ⟨(fetchWithRetry_spec attEx).1,
   (fetchWithRetry_spec attEx).2.1 "payload" 3 (by omega)
     (fun j hj => ⟨"boom", by interval_cases j <;> rfl⟩) (by rfl)⟩

/- ### C10 — translate -/

/-- C10 counterexample: the translations table stores the empty string for
"greeting" — an entry exists — yet `translate` returns the key itself, not
the stored translation. -/
theorem translate_emptyEntry_returnsKey :
    trEx "greeting" = some "" ∧
    translate trEx "greeting" = "greeting" ∧
    translate trEx "greeting" ≠ "" := by
  refine ⟨rfl, rfl, by decide⟩

/-- C10 (amended): `translate` returns the stored translation when the entry
exists and is non-empty; it returns the key unchanged when the entry is
missing or is the empty string (a JS-falsy entry); it never returns an
undefined value (it is total on strings). -/
theorem translate_spec (translations : String → Option String) (key : String) :
    (∀ v, translations key = some v → v ≠ "" → translate translations key = v) ∧
    (translations key = none → translate translations key = key) ∧
    (translations key = some "" → translate translations key = key) := by
  refine ⟨?_, ?_, ?_⟩
  · intro v hv hne
    unfold translate
    rw [hv]
    simp [hne]
  · intro hv
    unfold translate
    rw [hv]
  · intro hv
    unfold translate
    rw [hv]
    simp

/-- Witness for C10's amended theorem on the concrete table `trEx`. -/
theorem translate_spec_w :
    translate trEx "bye" = "ciao" ∧ translate trEx "missing" = "missing" :=
  ⟨(translate_spec trEx "bye").1 "ciao" rfl (by decide),
   (translate_spec trEx "missing").2.1 rfl⟩

/- ### C7 — InvalidProfile characterisation -/

theorem anyPairOverlap_eq_false_iff (ws : List LocalWindow) :
    anyPairOverlap ws = false ↔ ws.Pairwise (fun a b => windowsOverlap a b = false) := by
  induction ws with
  | nil => simp [anyPairOverlap]
  | cons w ws ih =>
      simp only [anyPairOverlap, Bool.or_eq_false_iff, List.any_eq_false,
        List.pairwise_cons, ih, Bool.not_eq_true]

theorem profileMalformed_iff (p : WorkPatternProfile) :
    profileMalformed p = true ↔
      ((∃ w ∈ p.windows, w.endM ≤ w.startM) ∨
        ¬ p.windows.Pairwise (fun a b => windowsOverlap a b = false)) := by
  unfold profileMalformed
  rw [Bool.or_eq_true, List.any_eq_true]
  constructor
  · rintro (⟨w, hw, hle⟩ | h2)
    · exact Or.inl ⟨w, hw, by simpa using hle⟩
    · refine Or.inr (fun hp => ?_)
      rw [← anyPairOverlap_eq_false_iff] at hp
      rw [hp] at h2
      simp at h2
  · rintro (⟨w, hw, hle⟩ | h2)
    · exact Or.inl ⟨w, hw, by simpa using hle⟩
    · right
      by_contra hfalse
      exact h2 ((anyPairOverlap_eq_false_iff p.windows).mp (by
        cases h : anyPairOverlap p.windows
        · rfl
        · exact absurd h hfalse))

/-- C7: `computeAvailability` fails with `InvalidProfile` exactly when the
profile's base windows are malformed — some window has start ≥ end, or two
windows on the same weekday overlap — and never on a well-formed profile. -/
theorem computeAvailability_invalidProfile_iff (p : WorkPatternProfile)
    (range : List Nat) (cal : HolidayCalendar) :
    computeAvailability p range cal = Except.error SchedError.invalidProfile ↔
      ((∃ w ∈ p.windows, w.endM ≤ w.startM) ∨
        ¬ p.windows.Pairwise (fun a b => windowsOverlap a b = false)) := by
  rw [← profileMalformed_iff]
  unfold computeAvailability
  constructor
  · intro h
    by_contra hfalse
    rw [Bool.not_eq_true] at hfalse
    rw [hfalse] at h
    cases h
  · intro h
    rw [h]
    rfl

/- ### C4 — Calendar Resolver determinism and idempotence -/

theorem lookupCache_some_mem (c : ResolverCache) (j : String) (y : Nat)
    (v : List (Nat × HolidayKind)) (h : lookupCache c j y = some v) :
    ((j, y), v) ∈ c := by
  unfold lookupCache at h
  rcases Option.map_eq_some'.mp h with ⟨entry, hfind, hv⟩
  have hpred := List.find?_some hfind
  have hmem := List.mem_of_find?_eq_some hfind
  rcases entry with ⟨⟨ej, ey⟩, ev⟩
  simp only [Bool.and_eq_true, beq_iff_eq] at hpred
  simp only at hv
  rw [hpred.1, hpred.2] at hmem
  rw [hv] at hmem
  exact hmem

theorem lookupCache_cons_self (c : ResolverCache) (j : String) (y : Nat)
    (v : List (Nat × HolidayKind)) :
    lookupCache (((j, y), v) :: c) j y = some v := by
  unfold lookupCache
  rw [List.find?_cons_of_pos]
  · rfl
  · simp

/-- C4: the Calendar Resolver is deterministic and idempotent — from any
coherent cache state, a resolver call returns exactly the pure resolution of
(jurisdiction, year), a second identical call returns the identical resolved
date set, and the cache stays coherent (so resolution, movable rules
included, is a pure cacheable function of the calendar and the year). -/
theorem resolveCached_hit (db : CalendarDB) (c : ResolverCache) (j : String) (y : Nat)
    (v : List (Nat × HolidayKind)) (hl : lookupCache c j y = some v) :
    resolveCached db c j y = (Except.ok v, c) := by
  unfold resolveCached
  rw [hl]

theorem resolveCached_miss_ok (db : CalendarDB) (c : ResolverCache) (j : String) (y : Nat)
    (v : List (Nat × HolidayKind)) (hl : lookupCache c j y = none)
    (hr : resolveCalendar db j y = Except.ok v) :
    resolveCached db c j y = (Except.ok v, ((j, y), v) :: c) := by
  unfold resolveCached
  rw [hl, hr]

theorem resolveCached_miss_err (db : CalendarDB) (c : ResolverCache) (j : String) (y : Nat)
    (e : SchedError) (hl : lookupCache c j y = none)
    (hr : resolveCalendar db j y = Except.error e) :
    resolveCached db c j y = (Except.error e, c) := by
  unfold resolveCached
  rw [hl, hr]

theorem resolver_idempotent (db : CalendarDB) (c : ResolverCache) (j : String) (y : Nat)
    (hc : cacheCoherent db c) :
    (resolveCached db c j y).1 = resolveCalendar db j y ∧
    (resolveCached db (resolveCached db c j y).2 j y).1 = (resolveCached db c j y).1 ∧
    cacheCoherent db (resolveCached db c j y).2 := by
  cases hl : lookupCache c j y with
  | some v =>
      have hres : resolveCalendar db j y = Except.ok v :=
        hc (j, y) v (lookupCache_some_mem c j y v hl)
      have heq := resolveCached_hit db c j y v hl
      refine ⟨?_, ?_, ?_⟩
      · rw [heq, hres]
      · rw [heq]
        show (resolveCached db c j y).1 = (Except.ok v, c).1
        rw [heq]
      · rw [heq]
        exact hc
  | none =>
      cases hr : resolveCalendar db j y with
      | ok v =>
          have heq := resolveCached_miss_ok db c j y v hl hr
          have heq2 : resolveCached db (((j, y), v) :: c) j y =
              (Except.ok v, ((j, y), v) :: c) :=
            resolveCached_hit db _ j y v (lookupCache_cons_self c j y v)
          refine ⟨?_, ?_, ?_⟩
          · rw [heq]
          · rw [heq]
            show (resolveCached db (((j, y), v) :: c) j y).1 =
              (Except.ok v, ((j, y), v) :: c).1
            rw [heq2]
          · rw [heq]
            intro k w hmem
            rcases List.mem_cons.mp hmem with hhead | htail
            · rw [Prod.mk.injEq] at hhead
              obtain ⟨hk, hw⟩ := hhead
              rw [hk, hw]
              exact hr
            · exact hc k w htail
      | error e =>
          have heq := resolveCached_miss_err db c j y e hl hr
          refine ⟨?_, ?_, ?_⟩
          · rw [heq]
          · rw [heq]
            show (resolveCached db c j y).1 = (Except.error e, c).1
            rw [heq]
          · rw [heq]
            exact hc

/-- Witness for C4: resolving the ZA calendar for 2024 from an empty cache. -/
theorem resolver_idempotent_w :
    (resolveCached dbEx [] "ZA" 2024).1 = resolveCalendar dbEx "ZA" 2024 ∧
    (resolveCached dbEx (resolveCached dbEx [] "ZA" 2024).2 "ZA" 2024).1 =
      (resolveCached dbEx [] "ZA" 2024).1 ∧
    cacheCoherent dbEx (resolveCached dbEx [] "ZA" 2024).2 :=
  resolver_idempotent dbEx [] "ZA" 2024 (fun _ _ h => absurd h (List.not_mem_nil _))

/- ### C2 — availability never overlaps a blocked holiday day -/

theorem applyAdjustments_cons (a : AdjustmentRule) (l : List AdjustmentRule) (d : Nat)
    (w : LocalWindow) :
    applyAdjustments (a :: l) d w =
      applyAdjustments l d
        (if a.appliesOn d then
          { w with endM := min (w.startM + (w.endM - w.startM) * a.num / a.den) 1440 }
        else w) := rfl

theorem applyAdjustments_startM (d : Nat) :
    ∀ (adjs : List AdjustmentRule) (w : LocalWindow),
      (applyAdjustments adjs d w).startM = w.startM := by
  intro adjs
  induction adjs with
  | nil => intro w; rfl
  | cons a l ih =>
      intro w
      rw [applyAdjustments_cons, ih]
      split <;> rfl

theorem applyAdjustments_endM_le (d : Nat) :
    ∀ (adjs : List AdjustmentRule) (w : LocalWindow),
      (applyAdjustments adjs d w).endM ≤ max w.endM 1440 := by
  intro adjs
  induction adjs with
  | nil => intro w; exact le_max_left _ _
  | cons a l ih =>
      intro w
      rw [applyAdjustments_cons]
      split
      · refine le_trans (ih _) ?_
        simp only []
        omega
      · exact ih w

/-- Every window contributed by day `d` lies inside day d's absolute-instant
interval, and a blocked holiday day contributes no window at all. -/
theorem mem_dayWindows_bounds (p : WorkPatternProfile) (cal : HolidayCalendar) (d : Nat)
    (w : AvailabilityWindow) (hWf : ∀ lw ∈ p.windows, lw.endM ≤ 1440)
    (hw : w ∈ dayWindows p cal d) :
    isBlockedHoliday cal d = false ∧
    (d : Int) * 1440 + p.tzOffset ≤ w.startI ∧
    w.endI ≤ (d : Int) * 1440 + 1440 + p.tzOffset := by
  unfold dayWindows at hw
  split at hw
  · exact absurd hw (List.not_mem_nil _)
  · next hnb =>
      rcases List.mem_filterMap.mp hw with ⟨lw, hmemf, hmap⟩
      have hmem : lw ∈ p.windows := (List.mem_filter.mp hmemf).1
      simp only [] at hmap
      split at hmap
      · next hlt =>
          rcases Option.some.inj hmap with rfl
          have hstart := applyAdjustments_startM d p.adjustments lw
          have hend := applyAdjustments_endM_le d p.adjustments lw
          have hle : lw.endM ≤ 1440 := hWf lw hmem
          refine ⟨by simpa using hnb, ?_, ?_⟩
          · simp only []
            omega
          · simp only []
            omega
      · exact absurd hmap (by simp)

/-- C2: every window returned by `computeAvailability` is disjoint from the
absolute-instant interval of every day that the calendar marks as a `public`
or `religious` holiday for the profile's jurisdiction. -/
theorem computeAvailability_avoids_holidays (p : WorkPatternProfile) (range : List Nat)
    (cal : HolidayCalendar) (ws : List AvailabilityWindow) (w : AvailabilityWindow) (d : Nat)
    (hWf : ∀ lw ∈ p.windows, lw.endM ≤ 1440)
    (hOk : computeAvailability p range cal = Except.ok ws)
    (hw : w ∈ ws) (hd : isBlockedHoliday cal d = true) :
    w.endI ≤ (d : Int) * 1440 + p.tzOffset ∨
    (d : Int) * 1440 + 1440 + p.tzOffset ≤ w.startI := by
  unfold computeAvailability at hOk
  split at hOk
  · exact absurd hOk (by simp)
  · rcases Except.ok.inj hOk with rfl
    rcases List.mem_flatten.mp hw with ⟨l, hl, hwl⟩
    rcases List.mem_map.mp hl with ⟨d0, _, rfl⟩
    obtain ⟨hnb, hs, he⟩ := mem_dayWindows_bounds p cal d0 w hWf hwl
    have hne : d ≠ d0 := by
      intro hdd
      rw [hdd] at hd
      rw [hd] at hnb
      cases hnb
    omega

/-- Witness for C2: the day-0 window of `pEx` is disjoint from the religious
holiday on day 1 of `calEx`. -/
theorem computeAvailability_avoids_holidays_w :
    (⟨420, 900⟩ : AvailabilityWindow).endI ≤ (1 : Int) * 1440 + pEx.tzOffset ∨
    (1 : Int) * 1440 + 1440 + pEx.tzOffset ≤ (⟨420, 900⟩ : AvailabilityWindow).startI :=
  computeAvailability_avoids_holidays pEx [0, 1, 2] calEx wsEx ⟨420, 900⟩ 1
    (by decide) (by rfl) (by decide) (by rfl)

/- ### C3 / C6 — Slot Optimizer terminal states -/

theorem mem_insertRanked (c x : ScheduleCandidate) :
    ∀ l : List ScheduleCandidate, x ∈ insertRanked c l ↔ x = c ∨ x ∈ l := by
  intro l
  induction l with
  | nil => simp [insertRanked]
  | cons d ds ih =>
      unfold insertRanked
      split
      · simp [List.mem_cons]
      · rw [List.mem_cons, List.mem_cons, ih]
        tauto

theorem mem_rank (x : ScheduleCandidate) :
    ∀ l : List ScheduleCandidate, x ∈ rank l ↔ x ∈ l := by
  intro l
  induction l with
  | nil => simp [rank]
  | cons c cs ih =>
      unfold rank
      rw [mem_insertRanked, ih, List.mem_cons]

theorem finishRun_done_compliant (cands cs : List ScheduleCandidate)
    (h : finishRun cands = OptimizerResult.done cs) (c : ScheduleCandidate) (hc : c ∈ cs) :
    hasMandatoryViolation c.results = false := by
  unfold finishRun at h
  split at h
  · cases h
  · rcases OptimizerResult.done.inj h with rfl
    have hmem := (mem_rank c _).mp hc
    have hfil := List.mem_filter.mp hmem
    simpa using hfil.2

theorem finishRun_infeasible_shape (cands : List ScheduleCandidate) (nms : List NearMiss)
    (h : finishRun cands = OptimizerResult.infeasible nms) :
    nms = cands.map toNearMiss ∧ filterCompliant cands = [] := by
  unfold finishRun at h
  split at h
  · next hemp =>
      rcases OptimizerResult.infeasible.inj h with rfl
      exact ⟨rfl, List.isEmpty_iff.mp hemp⟩
  · cases h

/-- C3: every candidate of a `Done` result has zero violation-status
ComplianceResults among the mandatory rules — a candidate with a
mandatory-rule violation never reaches the ranked output. -/
theorem done_candidates_compliant (req : SchedulingRequest) (cs : List ScheduleCandidate)
    (c : ScheduleCandidate) (cr : ComplianceResult)
    (h : runOptimizer req = OptimizerResult.done cs) (hc : c ∈ cs) (hcr : cr ∈ c.results)
    (hm : cr.rule.mandatory = true) : cr.status ≠ CStatus.violation := by
  unfold runOptimizer at h
  split at h
  · cases h
  · split at h
    · cases h
    · have hno := finishRun_done_compliant _ cs h c hc
      intro hv
      have hyes : hasMandatoryViolation c.results = true := by
        unfold hasMandatoryViolation
        rw [List.any_eq_true]
        exact ⟨cr, hcr, by rw [hm, hv]; rfl⟩
      rw [hno] at hyes
      cases hyes

/-- Witness for C3: the concrete request `reqDone` terminates in `Done` and
its single candidate's single compliance result is not a violation. -/
theorem done_candidates_compliant_w :
    (evalRule ruleOkEx ⟨540, 960, []⟩).status ≠ CStatus.violation :=
  done_candidates_compliant reqDone [mkCandidate reqDone ⟨540, 960⟩]
    (mkCandidate reqDone ⟨540, 960⟩) (evalRule ruleOkEx ⟨540, 960, []⟩)
    (by rfl) (by simp) (by simp [mkCandidate, evaluate, reqDone]) (by rfl)

/-- C6: an `Infeasible` result always carries at least one near-miss, and
every near-miss carries at least one specific blocking violation — never an
empty, unexplained response. -/
theorem infeasible_always_explained (req : SchedulingRequest) (nms : List NearMiss)
    (h : runOptimizer req = OptimizerResult.infeasible nms) :
    nms ≠ [] ∧ ∀ nm ∈ nms, nm.blockingReasons ≠ [] := by
  unfold runOptimizer at h
  split at h
  · cases h
  · split at h
    · cases h
    · next hne =>
        obtain ⟨hshape, hfil⟩ := finishRun_infeasible_shape _ nms h
        constructor
        · intro hnil
          rw [hnil] at hshape
          have hcands := List.map_eq_nil_iff.mp hshape.symm
          have hcommon := List.map_eq_nil_iff.mp hcands
          exact hne (by rw [hcommon]; rfl)
        · intro nm hnm
          rw [hshape] at hnm
          rcases List.mem_map.mp hnm with ⟨c, hcmem, rfl⟩
          have hviol : hasMandatoryViolation c.results = true := by
            by_contra hfalse
            have hcfil : c ∈ filterCompliant _ := List.mem_filter.mpr
              ⟨hcmem, by simpa using hfalse⟩
            rw [hfil] at hcfil
            exact absurd hcfil (List.not_mem_nil c)
          rcases List.any_eq_true.mp hviol with ⟨cr, hcrmem, hpred⟩
          intro hempty
          have hcrin : cr ∈ (toNearMiss c).blockingReasons :=
            List.mem_filter.mpr ⟨hcrmem, hpred⟩
          rw [hempty] at hcrin
          exact absurd hcrin (List.not_mem_nil cr)

/-- Witness for C6: the concrete request `reqInf` terminates in `Infeasible`
with one near-miss carrying its blocking violation. -/
theorem infeasible_always_explained_w :
    [toNearMiss (mkCandidate reqInf ⟨540, 960⟩)] ≠ [] ∧
    ∀ nm ∈ [toNearMiss (mkCandidate reqInf ⟨540, 960⟩)], nm.blockingReasons ≠ [] :=
  infeasible_always_explained reqInf [toNearMiss (mkCandidate reqInf ⟨540, 960⟩)] (by rfl)

end RLG
